import Mathlib

/-!
Shallow embedding of the playback clock and seek engine of
SRTSegmentMerger (`src/audio_player.rs`).

Seconds are modelled as exact rationals; a wall-clock instant is a
rational `now` passed to each operation; the file system is modelled as
the list of temporary artifact paths currently on disk.  The fallible
external interactions (creating a sink, opening/decoding a file, the
external ffmpeg invocation) are modelled by an `Env` of success flags,
and `seek` additionally returns the trace of events it performed, in
program order, so that ordering properties can be stated.
-/

/-- The decode/output sink (`rodio::Sink`): whether audio is queued and
whether output is currently running.  `Sink::stop` clears the queue and
halts output; `Sink::pause` only halts output. -/
structure SinkState where
  hasAudio : Bool
  playing : Bool
deriving DecidableEq

/-- The state of a sink on which `stop()` has been called. -/
def stoppedSink : SinkState := { hasAudio := false, playing := false }

/-- The playback-state fields of `struct AudioPlayer`
(`audio_player.rs` lines 10-20): total duration, the start anchor
(`start_time`), the recorded paused offset (`paused_at`), the playing
flag, the recorded temporary seek file, and the active sink. -/
structure AudioPlayer where
  duration : ℚ
  startTime : ℚ
  pausedAt : Option ℚ
  isPlaying : Bool
  tempSeekFile : Option String
  sink : SinkState
deriving DecidableEq

/-- Success flags for the fallible external interactions performed by
the player: `Sink::try_new`, `File::open`+`Decoder::new` on the original
audio file, the external ffmpeg invocation, and
`File::open`+`Decoder::new` on the freshly produced seek segment. -/
structure Env where
  sinkNewOk : Bool
  openOrigOk : Bool
  ffmpegOk : Bool
  openSegOk : Bool
deriving DecidableEq

/-- A player together with the file system (list of temporary artifact
paths on disk) and the current millisecond timestamp used to name the
next temporary file. -/
structure World where
  player : AudioPlayer
  disk : List String
  nextMs : ℕ
deriving DecidableEq

/-- Events performed during `seek`, recorded in program order. -/
inductive SeekEvent where
  | slowPath : SeekEvent
  | fallbackSlow : SeekEvent
  | ffmpegInvoked : ℚ → ℚ → SeekEvent
  | created : String → SeekEvent
  | purged : String → SeekEvent
  | openedSeg : String → SeekEvent
deriving DecidableEq

/-- Model of `AudioPlayer::position` (lines 222-229): return the recorded paused
offset verbatim if one is present, otherwise the elapsed wall-clock time
since the start anchor, clamped to the duration.  `Instant::elapsed`
never goes negative, hence the `max _ 0`. -/
def AudioPlayer.position (p : AudioPlayer) (now : ℚ) : ℚ :=
  match p.pausedAt with
  | some paused => paused
  | none => min (max (now - p.startTime) 0) p.duration

/-- Model of `AudioPlayer::new` (lines 23-51): the duration is the decoder's
total duration, or `0.0` when it is undeterminable; the source is
appended to the sink and the sink paused; the paused offset starts at
`Some(0.0)`, the playing flag at `false`, and no temp seek file is
recorded. -/
def AudioPlayer.new (totalDuration : Option ℚ) (now : ℚ) : AudioPlayer :=
  { duration := totalDuration.getD 0
    startTime := now
    pausedAt := some 0
    isPlaying := false
    tempSeekFile := none
    sink := { hasAudio := true, playing := false } }

/-- Model of `AudioPlayer::play` (lines 53-75): if the sink is empty, reload the
original file (skipped to the recorded paused offset) into it; then
resume output, set `start_time := now - paused_at.unwrap_or(0.0)`,
clear the paused offset and set the playing flag. -/
def AudioPlayer.play (p : AudioPlayer) (now : ℚ) (env : Env) : AudioPlayer :=
  let sink1 :=
    if p.sink.hasAudio then p.sink
    else if env.openOrigOk then { p.sink with hasAudio := true }
    else p.sink
  let pausedPosition := p.pausedAt.getD 0
  { p with
      sink := { sink1 with playing := true }
      startTime := now - pausedPosition
      pausedAt := none
      isPlaying := true }

/-- Model of `AudioPlayer::pause` (lines 77-86): suspend output, record the
current position as the paused offset, clear the playing flag. -/
def AudioPlayer.pause (p : AudioPlayer) (now : ℚ) : AudioPlayer :=
  let currentPos := p.position now
  { p with
      sink := { p.sink with playing := false }
      pausedAt := some currentPos
      isPlaying := false }

/-- The temporary file name produced by `create_seek_segment` (line 92):
`format!("whisper_seek_{}.wav", millis)` inside the system temp dir. -/
def tempFileName (ms : ℕ) : String := "whisper_seek_" ++ toString ms ++ ".wav"

/-- Result of `create_seek_segment`: the returned path on success, the
file system afterwards, and the events performed. -/
structure CreateResult where
  outcome : Option String
  disk : List String
  events : List SeekEvent
deriving DecidableEq

/-- Model of `AudioPlayer::create_seek_segment` (lines 90-124): pick the
timestamp-based temp name, compute
`duration_to_extract = (duration - position).min(30.0)`, invoke ffmpeg
to write the extracted window; on success the file is on disk and the
path returned, on failure an error is returned. -/
def createSeekSegment (env : Env) (duration pos : ℚ) (ms : ℕ)
    (disk : List String) : CreateResult :=
  let tempFile := tempFileName ms
  let durationToExtract := min (duration - pos) 30
  if env.ffmpegOk then
    { outcome := some tempFile
      disk := disk ++ [tempFile]
      events := [SeekEvent.ffmpegInvoked pos durationToExtract,
                 SeekEvent.created tempFile] }
  else
    { outcome := none
      disk := disk
      events := [SeekEvent.ffmpegInvoked pos durationToExtract] }

/-- Model of `AudioPlayer::cleanup_temp_seek_file` (lines 127-133): take the
recorded temp path, if any, and best-effort delete that file. -/
def cleanupTempSeekFile (p : AudioPlayer) (disk : List String) :
    AudioPlayer × List String × List SeekEvent :=
  match p.tempSeekFile with
  | some path =>
      ({ p with tempSeekFile := none }, disk.erase path,
       [SeekEvent.purged path])
  | none => (p, disk, [])

/-- The clamp applied at the top of `seek` (line 137):
`position.max(0.0).min(self.duration)`. -/
def clampPos (target duration : ℚ) : ℚ := min (max target 0) duration

/-- The block duplicated in all three successful seek branches
(lines 151-163, 176-191, 200-213): append the positioned source to the
fresh sink; if the player was playing, start it and re-anchor
`start_time := now - position`, clearing `paused_at`; otherwise pause it
and record `paused_at := Some(position)`; install the new sink. -/
def installNewSink (now pos : ℚ) (wasPlaying : Bool) (p : AudioPlayer) :
    AudioPlayer :=
  if wasPlaying then
    { p with
        sink := { hasAudio := true, playing := true }
        startTime := now - pos
        pausedAt := none }
  else
    { p with
        sink := { hasAudio := true, playing := false }
        pausedAt := some pos }

/-- Model of `AudioPlayer::seek` (lines 135-220): clamp the target, stop the
current sink, create a fresh sink; if the clamped position is below one
second take the slow path on the original file; otherwise call
`create_seek_segment` — on success purge the previous temp file, open
the new segment, install it and record its path; on ffmpeg failure fall
back to the slow path on the original file.  Every fallible interaction
that fails leaves the remaining fields untouched.  The returned trace
lists the performed events in program order. -/
def seek (now : ℚ) (env : Env) (target : ℚ) (w : World) :
    World × List SeekEvent :=
  let pos := clampPos target w.player.duration
  let p := { w.player with sink := stoppedSink }
  if env.sinkNewOk then
    if pos < 1 then
      if env.openOrigOk then
        ({ player := installNewSink now pos p.isPlaying p, disk := w.disk,
           nextMs := w.nextMs + 1 }, [SeekEvent.slowPath])
      else
        ({ player := p, disk := w.disk, nextMs := w.nextMs + 1 },
         [SeekEvent.slowPath])
    else
      let cr := createSeekSegment env p.duration pos w.nextMs w.disk
      match cr.outcome with
      | some seekFile =>
        let pc := cleanupTempSeekFile p cr.disk
        if env.openSegOk then
          ({ player := { installNewSink now pos pc.1.isPlaying pc.1 with
                           tempSeekFile := some seekFile }
             , disk := pc.2.1, nextMs := w.nextMs + 1 },
           cr.events ++ pc.2.2 ++ [SeekEvent.openedSeg seekFile])
        else
          ({ player := pc.1, disk := pc.2.1, nextMs := w.nextMs + 1 },
           cr.events ++ pc.2.2)
      | none =>
        if env.openOrigOk then
          ({ player := installNewSink now pos p.isPlaying p,
             disk := cr.disk, nextMs := w.nextMs + 1 },
           cr.events ++ [SeekEvent.fallbackSlow])
        else
          ({ player := p, disk := cr.disk, nextMs := w.nextMs + 1 },
           cr.events ++ [SeekEvent.fallbackSlow])
  else
    ({ player := p, disk := w.disk, nextMs := w.nextMs + 1 }, [])

/-- Model of `Drop for AudioPlayer` (lines 236-241): teardown runs
`cleanup_temp_seek_file`. -/
def dropPlayer (w : World) : World :=
  let pc := cleanupTempSeekFile w.player w.disk
  { player := pc.1, disk := pc.2.1, nextMs := w.nextMs }

/-- One seek request: the wall-clock instant at which it is issued, the
environment outcome flags, and the requested target. -/
structure SeekReq where
  now : ℚ
  env : Env
  target : ℚ
deriving DecidableEq

/-- A sequence of seek calls, applied left to right. -/
def runSeeks (reqs : List SeekReq) (w : World) : World :=
  reqs.foldl (fun acc r => (seek r.now r.env r.target acc).1) w

/-- The list of files on disk that the temp record accounts for. -/
def tempList : Option String → List String
  | some path => [path]
  | none => []

/-- Disk coherence: the temporary files on disk are exactly the one
recorded in `temp_seek_file` (if any). -/
def diskInv (w : World) : Prop := w.disk = tempList w.player.tempSeekFile

/-- An all-success environment. -/
def envAllOk : Env :=
  { sinkNewOk := true, openOrigOk := true, ffmpegOk := true, openSegOk := true }

lemma installNewSink_tempSeekFile (now pos : ℚ) (b : Bool) (p : AudioPlayer) :
    (installNewSink now pos b p).tempSeekFile = p.tempSeekFile := by
  cases b <;> simp [installNewSink]

lemma clampPos_nonneg (target duration : ℚ) (hd : 0 ≤ duration) :
    0 ≤ clampPos target duration :=
  le_min (le_max_right target 0) hd

lemma clampPos_le (target duration : ℚ) :
    clampPos target duration ≤ duration :=
  min_le_right _ _

/-- On every seek whose fallible interactions succeed (fresh sink, the
decoder open that the chosen path needs), the position read immediately
afterwards is the clamped target. -/
lemma seek_position_success (now target : ℚ) (env : Env) (w : World)
    (hd : 0 ≤ w.player.duration)
    (hsk : env.sinkNewOk = true) (ho : env.openOrigOk = true)
    (hseg : env.ffmpegOk = true → env.openSegOk = true) :
    ((seek now env target w).1).player.position now
      = clampPos target w.player.duration := by
  have h0 : 0 ≤ clampPos target w.player.duration := clampPos_nonneg _ _ hd
  have hle : clampPos target w.player.duration ≤ w.player.duration :=
    clampPos_le _ _
  cases env with
  | mk es eo ef eg =>
    simp only at hsk ho hseg
    subst hsk; subst ho
    by_cases hlt : clampPos target w.player.duration < 1
    · cases hp : w.player.isPlaying <;>
        simp [seek, installNewSink, AudioPlayer.position, hlt, hp,
          sub_sub_cancel, max_eq_left h0, min_eq_left hle]
    · cases ef with
      | false =>
        cases hp : w.player.isPlaying <;>
          simp [seek, createSeekSegment, installNewSink, AudioPlayer.position,
            hlt, hp, sub_sub_cancel, max_eq_left h0, min_eq_left hle]
      | true =>
        have heg : eg = true := hseg rfl
        subst heg
        cases ht : w.player.tempSeekFile with
        | none =>
          cases hp : w.player.isPlaying <;>
            simp [seek, createSeekSegment, cleanupTempSeekFile, installNewSink,
              AudioPlayer.position, hlt, hp, ht, sub_sub_cancel,
              max_eq_left h0, min_eq_left hle]
        | some old =>
          cases hp : w.player.isPlaying <;>
            simp [seek, createSeekSegment, cleanupTempSeekFile, installNewSink,
              AudioPlayer.position, hlt, hp, ht, sub_sub_cancel,
              max_eq_left h0, min_eq_left hle]

/-- A freshly constructed world: player opened on a 100-second file at
instant 0, nothing on disk, next timestamp 0. -/
def wInit : World :=
  { player := AudioPlayer.new (some 100) 0, disk := [], nextMs := 0 }

/-- Environment in which the ffmpeg invocation fails and everything
else succeeds. -/
def envFfmpegFail : Env :=
  { sinkNewOk := true, openOrigOk := true, ffmpegOk := false, openSegOk := false }

/-- Claim C1: for every seek target, seeking and then reading the
position before any time passes yields the target clamped to
`[0, duration]`: targets inside the range come back exactly (hence
within any tolerance), targets outside come back as the nearest
bound. -/
theorem seek_then_position_clamped (now target : ℚ) (env : Env) (w : World)
    (hd : 0 ≤ w.player.duration)
    (hsk : env.sinkNewOk = true) (ho : env.openOrigOk = true)
    (hsg : env.openSegOk = true) :
    ((seek now env target w).1).player.position now
        = clampPos target w.player.duration
    ∧ (0 ≤ target → target ≤ w.player.duration →
        ((seek now env target w).1).player.position now = target)
    ∧ (target < 0 → ((seek now env target w).1).player.position now = 0)
    ∧ (w.player.duration < target →
        ((seek now env target w).1).player.position now
          = w.player.duration) := by
  have hmain := seek_position_success now target env w hd hsk ho fun _ => hsg
  refine ⟨hmain, ?_, ?_, ?_⟩
  · intro h1 h2
    rw [hmain, clampPos, max_eq_left h1, min_eq_left h2]
  · intro h
    rw [hmain, clampPos, max_eq_right h.le, min_eq_left hd]
  · intro h
    rw [hmain, clampPos, max_eq_left (hd.trans h.le), min_eq_right h.le]

/-- Witness for C1 at the concrete out-of-range target 150 on a
100-second file. -/
theorem seek_then_position_clamped_witness :
    (0 : ℚ) ≤ wInit.player.duration
    ∧ ((seek 0 envAllOk 150 wInit).1).player.position 0
        = clampPos 150 wInit.player.duration :=
  ⟨by decide,
   (seek_then_position_clamped 0 150 envAllOk wInit (by decide) rfl rfl rfl).1⟩

/-- Claim C6: when the clamped target is at least one second and the
external ffmpeg invocation fails, the seek falls back to the slow path
on the original file and still succeeds — the position read afterwards
is the clamped target. -/
theorem seek_ffmpeg_failure_falls_back (now target : ℚ) (env : Env)
    (w : World)
    (hsk : env.sinkNewOk = true) (hff : env.ffmpegOk = false)
    (ho : env.openOrigOk = true)
    (h1 : 1 ≤ clampPos target w.player.duration) :
    SeekEvent.fallbackSlow ∈ (seek now env target w).2
    ∧ ((seek now env target w).1).player.position now
        = clampPos target w.player.duration := by
  have hd : 0 ≤ w.player.duration :=
    le_trans (le_trans zero_le_one h1) (clampPos_le _ _)
  have hnlt : ¬ clampPos target w.player.duration < 1 := not_lt.mpr h1
  constructor
  · cases env with
    | mk es eo ef eg =>
      simp only at hsk hff ho
      subst hsk; subst hff; subst ho
      simp [seek, createSeekSegment, hnlt]
  · exact seek_position_success now target env w hd hsk ho
      (fun h => absurd h (by simp [hff]))

/-- Witness for C6 at the concrete target 50 on a 100-second file with
a failing ffmpeg invocation. -/
theorem seek_ffmpeg_failure_falls_back_witness :
    (1 : ℚ) ≤ clampPos 50 wInit.player.duration
    ∧ SeekEvent.fallbackSlow ∈ (seek 0 envFfmpegFail 50 wInit).2
    ∧ ((seek 0 envFfmpegFail 50 wInit).1).player.position 0
        = clampPos 50 wInit.player.duration :=
  ⟨by decide,
   seek_ffmpeg_failure_falls_back 0 50 envFfmpegFail wInit rfl rfl rfl
     (by decide)⟩

/-- A player that is currently playing at position 5 of a 100-second
file, observed at instant 0 (its start anchor is -5). -/
def playingAt5 : AudioPlayer :=
  { duration := 100
    startTime := -5
    pausedAt := none
    isPlaying := true
    tempSeekFile := none
    sink := { hasAudio := true, playing := true } }

/-- Claim C5, failing input: calling `play()` while already playing is
not a no-op.  Because `paused_at` is `None` while playing,
`paused_at.unwrap_or(0.0)` is `0.0` and the second `play()` re-anchors
`start_time` to `now`, so the reported position jumps from 5 back
to 0 even though the audio keeps playing. -/
theorem play_while_playing_resets_position :
    playingAt5.isPlaying = true
    ∧ playingAt5.position 0 = 5
    ∧ (playingAt5.play 0 envAllOk).isPlaying = true
    ∧ (playingAt5.play 0 envAllOk).position 0 = 0 := by
  refine ⟨rfl, ?_, rfl, ?_⟩
  · show min (max ((0 : ℚ) - (-5)) 0) 100 = 5
    norm_num [max_def, min_def]
  · show min (max ((0 : ℚ) - (0 - 0)) 0) 100 = 0
    norm_num [max_def, min_def]

/-- Claim C8, counterexample: the temporary file produced by the fast
seek path for timestamp 0 is named `whisper_seek_0.wav`, not
`seek_0.wav` — the literal prefix is `whisper_seek_`, not `seek_`. -/
theorem temp_artifact_name_counterexample :
    ((seek 0 envAllOk 5 wInit).1).player.tempSeekFile
        = some (tempFileName wInit.nextMs)
    ∧ tempFileName wInit.nextMs
        ≠ "seek_" ++ toString wInit.nextMs ++ ".wav" := by decide

/-- Claim C8 as amended: every temporary file produced by the fast seek
path is named with the literal prefix `whisper_seek_` followed by the
current millisecond timestamp and the `.wav` extension. -/
theorem created_temp_name_form (now target : ℚ) (env : Env) (w : World) :
    ∀ name, SeekEvent.created name ∈ (seek now env target w).2 →
      name = tempFileName w.nextMs
      ∧ ∃ ms : ℕ, name = "whisper_seek_" ++ toString ms ++ ".wav" := by
  intro name hmem
  cases env with
  | mk es eo ef eg =>
    by_cases hlt : clampPos target w.player.duration < 1 <;>
      cases ht : w.player.tempSeekFile <;>
        cases es <;> cases eo <;> cases ef <;> cases eg <;>
          simp [seek, createSeekSegment, cleanupTempSeekFile, hlt, ht]
            at hmem <;>
          exact ⟨hmem, w.nextMs, hmem⟩

/-- Witness for the amended C8 on a concrete fast seek. -/
theorem created_temp_name_form_witness :
    SeekEvent.created "whisper_seek_0.wav" ∈ (seek 0 envAllOk 5 wInit).2
    ∧ ("whisper_seek_0.wav" = tempFileName wInit.nextMs
       ∧ ∃ ms : ℕ,
           "whisper_seek_0.wav" = "whisper_seek_" ++ toString ms ++ ".wav") :=
  ⟨by decide,
   created_temp_name_form 0 5 envAllOk wInit "whisper_seek_0.wav" (by decide)⟩

/-- Claim C9: a freshly constructed player is paused with a recorded
paused offset of 0, has no temporary artifact, and reports position 0
at every later instant until `play()` or `seek()` is called. -/
theorem new_player_initial_state (total : Option ℚ) (now t : ℚ) :
    (AudioPlayer.new total now).isPlaying = false
    ∧ (AudioPlayer.new total now).pausedAt = some 0
    ∧ (AudioPlayer.new total now).tempSeekFile = none
    ∧ (AudioPlayer.new total now).position t = 0 := by
  simp [AudioPlayer.new, AudioPlayer.position]

/-- A world whose player has an undeterminable (hence zero) duration
and is currently in the playing state. -/
def wZero : World :=
  { player :=
      { duration := 0
        startTime := 0
        pausedAt := none
        isPlaying := true
        tempSeekFile := none
        sink := { hasAudio := true, playing := true } }
    disk := []
    nextMs := 0 }

/-- Claim C10: when the decoder cannot determine the total duration,
construction records duration 0; thereafter every seek clamps its
target to 0 and takes the slow path (the ffmpeg fast path is never
invoked), and while playing the position is always 0 because the
elapsed time is clamped to the zero duration. -/
theorem undetermined_duration_behavior (now t target : ℚ) (env : Env)
    (w : World) (hdur : w.player.duration = 0)
    (hp : w.player.pausedAt = none) :
    (AudioPlayer.new none now).duration = 0
    ∧ clampPos target w.player.duration = 0
    ∧ (∀ s win, SeekEvent.ffmpegInvoked s win ∉ (seek now env target w).2)
    ∧ (env.sinkNewOk = true → SeekEvent.slowPath ∈ (seek now env target w).2)
    ∧ w.player.position t = 0 := by
  have hc : clampPos target w.player.duration = 0 := by
    rw [hdur, clampPos]
    exact min_eq_right (le_max_right target 0)
  have hlt : clampPos target w.player.duration < 1 := by
    rw [hc]; norm_num
  refine ⟨rfl, hc, ?_, ?_, ?_⟩
  · intro s win
    cases env with
    | mk es eo ef eg =>
      cases es <;> cases eo <;> simp [seek, hlt]
  · intro hsk
    cases env with
    | mk es eo ef eg =>
      simp only at hsk
      subst hsk
      cases eo <;> simp [seek, hlt]
  · simp only [AudioPlayer.position, hp, hdur]
    exact min_eq_right (le_max_right _ 0)

/-- Witness for C10 on a concrete zero-duration playing player. -/
theorem undetermined_duration_behavior_witness :
    wZero.player.duration = 0 ∧ wZero.player.pausedAt = none
    ∧ ((AudioPlayer.new none 3).duration = 0
       ∧ clampPos 42 wZero.player.duration = 0
       ∧ (∀ s win, SeekEvent.ffmpegInvoked s win ∉ (seek 3 envAllOk 42 wZero).2)
       ∧ (envAllOk.sinkNewOk = true →
            SeekEvent.slowPath ∈ (seek 3 envAllOk 42 wZero).2)
       ∧ wZero.player.position 9 = 0) :=
  ⟨rfl, rfl, undetermined_duration_behavior 3 9 42 envAllOk wZero rfl rfl⟩

/-- Claim C7: after clamping, the slow path is taken exactly when the
clamped position is below one second; otherwise ffmpeg is asked for a
window starting at the clamped position whose length is exactly
`min(30, duration - position)` seconds, never more than 30. -/
theorem seek_path_choice (now target : ℚ) (env : Env) (w : World)
    (hsk : env.sinkNewOk = true) :
    (SeekEvent.slowPath ∈ (seek now env target w).2
        ↔ clampPos target w.player.duration < 1)
    ∧ (¬ clampPos target w.player.duration < 1 →
        SeekEvent.ffmpegInvoked (clampPos target w.player.duration)
            (min 30 (w.player.duration - clampPos target w.player.duration))
          ∈ (seek now env target w).2)
    ∧ (∀ s win, SeekEvent.ffmpegInvoked s win ∈ (seek now env target w).2 →
        s = clampPos target w.player.duration
        ∧ win = min 30 (w.player.duration - clampPos target w.player.duration)
        ∧ win ≤ 30) := by
  cases env with
  | mk es eo ef eg =>
    simp only at hsk
    subst hsk
    by_cases hlt : clampPos target w.player.duration < 1
    · refine ⟨iff_of_true ?_ hlt, fun h => absurd hlt h, ?_⟩
      · cases eo <;> simp [seek, hlt]
      · intro s win hmem
        cases eo <;> simp [seek, hlt] at hmem
    · refine ⟨iff_of_false ?_ hlt, fun h => ?_, ?_⟩
      · cases ef <;> cases eg <;> cases eo <;>
          rcases ht : w.player.tempSeekFile with _ | old <;>
            simp [seek, createSeekSegment, cleanupTempSeekFile, hlt, ht]
      · cases ef <;> cases eg <;> cases eo <;>
          rcases ht : w.player.tempSeekFile with _ | old <;>
            simp [seek, createSeekSegment, cleanupTempSeekFile, hlt, ht,
              min_comm]
      · intro s win hmem
        cases ef <;> cases eg <;> cases eo <;>
          rcases ht : w.player.tempSeekFile with _ | old <;>
            simp [seek, createSeekSegment, cleanupTempSeekFile, hlt, ht]
              at hmem <;>
          exact ⟨hmem.1, by rw [hmem.2]; exact min_comm _ _,
            by rw [hmem.2]; exact min_le_right _ _⟩

/-- Witness for C7 on a concrete fast seek to 40 of a 100-second
file. -/
theorem seek_path_choice_witness :
    envAllOk.sinkNewOk = true
    ∧ ((SeekEvent.slowPath ∈ (seek 0 envAllOk 40 wInit).2
          ↔ clampPos 40 wInit.player.duration < 1)
       ∧ (¬ clampPos 40 wInit.player.duration < 1 →
           SeekEvent.ffmpegInvoked (clampPos 40 wInit.player.duration)
               (min 30 (wInit.player.duration
                  - clampPos 40 wInit.player.duration))
             ∈ (seek 0 envAllOk 40 wInit).2)
       ∧ (∀ s win,
           SeekEvent.ffmpegInvoked s win ∈ (seek 0 envAllOk 40 wInit).2 →
             s = clampPos 40 wInit.player.duration
             ∧ win = min 30 (wInit.player.duration
                  - clampPos 40 wInit.player.duration)
             ∧ win ≤ 30)) :=
  ⟨rfl, seek_path_choice 0 40 envAllOk wInit rfl⟩

/-- A world whose player is playing at position 5 of a 100-second file
with a previous temporary seek artifact recorded and on disk. -/
def wWithTemp : World :=
  { player :=
      { duration := 100
        startTime := -5
        pausedAt := none
        isPlaying := true
        tempSeekFile := some "old.wav"
        sink := { hasAudio := true, playing := true } }
    disk := ["old.wav"]
    nextMs := 3 }

/-- Environment in which ffmpeg succeeds but every decoder open fails
(in particular the freshly produced seek segment cannot be decoded). -/
def envSegFail : Env :=
  { sinkNewOk := true, openOrigOk := false, ffmpegOk := true, openSegOk := false }

/-- Claim C2, counterexample: a seek whose replacement source fails to
decode is not a no-op — the previous temp-artifact record has been
cleared (the old artifact was already purged) and the previous pipeline
has been stopped and emptied. -/
theorem seek_decode_failure_not_noop :
    ((seek 0 envSegFail 50 wWithTemp).1).player.tempSeekFile
        ≠ wWithTemp.player.tempSeekFile
    ∧ ((seek 0 envSegFail 50 wWithTemp).1).player.sink
        ≠ wWithTemp.player.sink := by decide

/-- Claim C2 as amended: when the replacement source fails to open or
decode, the clock anchors, the paused offset and the playing flag are
left exactly as they were, but the previous pipeline has already been
stopped and emptied, and — when the fast path had already produced an
artifact — the previous temporary artifact has already been purged and
the record cleared.  When ffmpeg did not run, the temp record and the
disk are also untouched. -/
theorem seek_open_failure_preserves_flags (now target : ℚ) (env : Env)
    (w : World) (ho : env.openOrigOk = false) (hg : env.openSegOk = false) :
    ((seek now env target w).1).player.startTime = w.player.startTime
    ∧ ((seek now env target w).1).player.pausedAt = w.player.pausedAt
    ∧ ((seek now env target w).1).player.isPlaying = w.player.isPlaying
    ∧ ((seek now env target w).1).player.duration = w.player.duration
    ∧ ((seek now env target w).1).player.sink = stoppedSink
    ∧ (env.ffmpegOk = false →
        ((seek now env target w).1).player.tempSeekFile
            = w.player.tempSeekFile
        ∧ (seek now env target w).1.disk = w.disk)
    ∧ (env.sinkNewOk = true → env.ffmpegOk = true →
        ¬ clampPos target w.player.duration < 1 →
        ((seek now env target w).1).player.tempSeekFile = none) := by
  cases env with
  | mk es eo ef eg =>
    simp only at ho hg
    subst ho; subst hg
    by_cases hlt : clampPos target w.player.duration < 1 <;>
      cases es <;> cases ef <;>
        rcases ht : w.player.tempSeekFile with _ | old <;>
          simp [seek, createSeekSegment, cleanupTempSeekFile, stoppedSink,
            hlt, ht]

/-- Witness for the amended C2 on a concrete failing seek. -/
theorem seek_open_failure_preserves_flags_witness :
    envSegFail.openOrigOk = false ∧ envSegFail.openSegOk = false
    ∧ (((seek 0 envSegFail 50 wWithTemp).1).player.startTime
          = wWithTemp.player.startTime
       ∧ ((seek 0 envSegFail 50 wWithTemp).1).player.pausedAt
          = wWithTemp.player.pausedAt
       ∧ ((seek 0 envSegFail 50 wWithTemp).1).player.isPlaying
          = wWithTemp.player.isPlaying
       ∧ ((seek 0 envSegFail 50 wWithTemp).1).player.duration
          = wWithTemp.player.duration
       ∧ ((seek 0 envSegFail 50 wWithTemp).1).player.sink = stoppedSink
       ∧ (envSegFail.ffmpegOk = false →
           ((seek 0 envSegFail 50 wWithTemp).1).player.tempSeekFile
              = wWithTemp.player.tempSeekFile
           ∧ (seek 0 envSegFail 50 wWithTemp).1.disk = wWithTemp.disk)
       ∧ (envSegFail.sinkNewOk = true → envSegFail.ffmpegOk = true →
           ¬ clampPos 50 wWithTemp.player.duration < 1 →
           ((seek 0 envSegFail 50 wWithTemp).1).player.tempSeekFile
              = none)) :=
  ⟨rfl, rfl,
   seek_open_failure_preserves_flags 0 50 envSegFail wWithTemp rfl rfl⟩

lemma seek_preserves_diskInv (now target : ℚ) (env : Env) (w : World)
    (hinv : diskInv w) (hg : env.openSegOk = true) :
    diskInv (seek now env target w).1 := by
  cases env with
  | mk es eo ef eg =>
    simp only at hg
    subst hg
    rcases ht : w.player.tempSeekFile with _ | old <;>
      simp only [diskInv, ht, tempList] at hinv <;>
      by_cases hlt : clampPos target w.player.duration < 1 <;>
        cases es <;> cases eo <;> cases ef <;>
          simp [seek, diskInv, tempList, createSeekSegment,
            cleanupTempSeekFile, installNewSink_tempSeekFile, hlt, ht, hinv,
            List.singleton_append, List.erase_cons_head]

lemma seek_record_on_disk (now target : ℚ) (env : Env) (w : World)
    (hinv : diskInv w) :
    ∀ n, ((seek now env target w).1).player.tempSeekFile = some n →
      n ∈ (seek now env target w).1.disk := by
  intro n hrec
  cases env with
  | mk es eo ef eg =>
    rcases ht : w.player.tempSeekFile with _ | old <;>
      simp only [diskInv, ht, tempList] at hinv <;>
      by_cases hlt : clampPos target w.player.duration < 1 <;>
        cases es <;> cases eo <;> cases ef <;> cases eg <;>
          simp [seek, tempList, createSeekSegment, cleanupTempSeekFile,
            installNewSink_tempSeekFile, hlt, ht, hinv,
            List.singleton_append, List.erase_cons_head] at hrec ⊢ <;>
          simp [hrec]

/-- Whether a trace contains a successful open of a seek segment. -/
def hasOpenedSeg : List SeekEvent → Bool
  | [] => false
  | SeekEvent.openedSeg _ :: _ => true
  | _ :: es => hasOpenedSeg es

/-- Claim C3, counterexample: in a fast seek whose fresh segment fails
to open, the previous artifact is purged even though the new artifact
is never successfully opened by the pipeline — so the purge is not
"only after the new artifact has been successfully opened". -/
theorem seek_purge_before_open_counterexample :
    SeekEvent.purged "old.wav" ∈ (seek 0 envSegFail 50 wWithTemp).2
    ∧ hasOpenedSeg (seek 0 envSegFail 50 wWithTemp).2 = false := by decide

/-- Claim C3 as amended: the previous temporary artifact is purged only
after the newly produced artifact exists on disk (the creation event
strictly precedes every purge event in the seek trace), though before
the new artifact is opened; and the player never holds a reference to a
deleted file — whenever the temp record names a file, that file is on
disk (given the disk was coherent beforehand). -/
theorem seek_purge_ordering (now target : ℚ) (env : Env) (w : World)
    (hinv : diskInv w) :
    (∀ name, SeekEvent.purged name ∈ (seek now env target w).2 →
      ∃ pre post,
        (seek now env target w).2 = pre ++ SeekEvent.purged name :: post
        ∧ SeekEvent.created (tempFileName w.nextMs) ∈ pre)
    ∧ (∀ n, ((seek now env target w).1).player.tempSeekFile = some n →
        n ∈ (seek now env target w).1.disk) := by
  refine ⟨?_, seek_record_on_disk now target env w hinv⟩
  intro name hmem
  cases env with
  | mk es eo ef eg =>
    by_cases hlt : clampPos target w.player.duration < 1
    · cases es <;> cases eo <;> simp [seek, hlt] at hmem
    · cases es
      · simp [seek, hlt] at hmem
      · cases ef
        · cases eo <;>
            simp [seek, createSeekSegment, cleanupTempSeekFile, hlt] at hmem
        · rcases ht : w.player.tempSeekFile with _ | old
          · cases eg <;>
              simp [seek, createSeekSegment, cleanupTempSeekFile, hlt, ht]
                at hmem
          · cases eg
            · simp [seek, createSeekSegment, cleanupTempSeekFile, hlt, ht]
                at hmem
              subst hmem
              refine ⟨[SeekEvent.ffmpegInvoked
                  (clampPos target w.player.duration)
                  (min (w.player.duration
                      - clampPos target w.player.duration) 30),
                SeekEvent.created (tempFileName w.nextMs)], [], ?_, by simp⟩
              simp [seek, createSeekSegment, cleanupTempSeekFile, hlt, ht]
            · simp [seek, createSeekSegment, cleanupTempSeekFile, hlt, ht]
                at hmem
              subst hmem
              refine ⟨[SeekEvent.ffmpegInvoked
                  (clampPos target w.player.duration)
                  (min (w.player.duration
                      - clampPos target w.player.duration) 30),
                SeekEvent.created (tempFileName w.nextMs)],
                [SeekEvent.openedSeg (tempFileName w.nextMs)], ?_, by simp⟩
              simp [seek, createSeekSegment, cleanupTempSeekFile, hlt, ht]

/-- Witness for the amended C3 on a concrete successful fast seek that
purges a previous artifact. -/
theorem seek_purge_ordering_witness :
    diskInv wWithTemp
    ∧ ((∀ name,
          SeekEvent.purged name ∈ (seek 0 envAllOk 50 wWithTemp).2 →
          ∃ pre post,
            (seek 0 envAllOk 50 wWithTemp).2
              = pre ++ SeekEvent.purged name :: post
            ∧ SeekEvent.created (tempFileName wWithTemp.nextMs) ∈ pre)
       ∧ (∀ n,
          ((seek 0 envAllOk 50 wWithTemp).1).player.tempSeekFile = some n →
            n ∈ (seek 0 envAllOk 50 wWithTemp).1.disk)) :=
  ⟨rfl, seek_purge_ordering 0 50 envAllOk wWithTemp rfl⟩

/-- Two consecutive fast seeks, the first of which produces a segment
that fails to decode. -/
def reqsLeak : List SeekReq :=
  [{ now := 0, env := envSegFail, target := 5 },
   { now := 1, env := envAllOk, target := 7 }]

/-- Claim C4, counterexample: a fast seek whose produced artifact fails
to decode leaks that artifact — the record is cleared without the file
being deleted, so a later successful fast seek leaves two artifacts on
disk, and teardown removes only the recorded one. -/
theorem seeks_artifact_leak_counterexample :
    (runSeeks reqsLeak wInit).disk.length = 2
    ∧ (dropPlayer (runSeeks reqsLeak wInit)).disk ≠ [] := by decide

/-- Claim C4 as amended: provided every artifact the fast path produces
is also successfully opened by the pipeline, after any sequence of
seeks at most one temporary artifact exists on disk (the disk stays
coherent with the temp record), and tearing down the player removes any
outstanding temporary artifact. -/
theorem seeks_at_most_one_artifact (reqs : List SeekReq) (w : World)
    (hinv : diskInv w)
    (hgood : ∀ r ∈ reqs, r.env.openSegOk = true) :
    diskInv (runSeeks reqs w)
    ∧ (runSeeks reqs w).disk.length ≤ 1
    ∧ (dropPlayer (runSeeks reqs w)).disk = [] := by
  have hrun : ∀ (rs : List SeekReq) (v : World), diskInv v →
      (∀ r ∈ rs, r.env.openSegOk = true) → diskInv (runSeeks rs v) := by
    intro rs
    induction rs with
    | nil => intro v h _; simpa [runSeeks] using h
    | cons r rest ih =>
      intro v h hg
      exact ih ((seek r.now r.env r.target v).1)
        (seek_preserves_diskInv r.now r.target r.env v h (hg r (by simp)))
        (fun x hx => hg x (by simp [hx]))
  have hd := hrun reqs w hinv hgood
  refine ⟨hd, ?_, ?_⟩
  · simp only [diskInv] at hd
    rw [hd]
    cases (runSeeks reqs w).player.tempSeekFile <;> simp [tempList]
  · simp only [diskInv] at hd
    cases hr : (runSeeks reqs w).player.tempSeekFile with
    | none =>
      simp only [hr, tempList] at hd
      simp [dropPlayer, cleanupTempSeekFile, hr, hd]
    | some n =>
      simp only [hr, tempList] at hd
      simp [dropPlayer, cleanupTempSeekFile, hr, hd, List.erase_cons_head]

/-- Two consecutive fully successful fast seeks. -/
def reqsGood : List SeekReq :=
  [{ now := 0, env := envAllOk, target := 5 },
   { now := 1, env := envAllOk, target := 7 }]

/-- Witness for the amended C4 on two concrete successful fast seeks. -/
theorem seeks_at_most_one_artifact_witness :
    diskInv wInit ∧ (∀ r ∈ reqsGood, r.env.openSegOk = true)
    ∧ (diskInv (runSeeks reqsGood wInit)
       ∧ (runSeeks reqsGood wInit).disk.length ≤ 1
       ∧ (dropPlayer (runSeeks reqsGood wInit)).disk = []) :=
  ⟨rfl, by decide, seeks_at_most_one_artifact reqsGood wInit rfl (by decide)⟩
